import Mathlib

/-!
Shallow embedding of the MeshSOS routing engine (`src/routing/engine.py`) over ℝ,
together with proofs about the three route builders and the Haversine distance
model.  Python floats are modelled as real numbers; `round(x, p)` is modelled by
rounding `x * 10^p` to the nearest integer (Python rounds exact half-way ties to
even, which differs only on such ties).
-/

namespace MeshSOS

open Real

/-- Python `math.radians x`: degrees to radians. -/
noncomputable def radians (x : ℝ) : ℝ := x * Real.pi / 180

/-- Python `math.atan2 y x`: the angle of the point `(x, y)`, i.e. the argument of
the complex number with real part `x` and imaginary part `y`, lying in `(-π, π]`,
with `atan2 0 0 = 0`. -/
noncomputable def atan2 (y x : ℝ) : ℝ := Complex.arg ⟨x, y⟩

/-- Python `round(x, p)` modelled over ℝ: round `x * 10^p` to the nearest integer
and scale back.  (Python rounds exact half-way ties to even; the two conventions
agree everywhere else.) -/
noncomputable def roundTo (p : ℕ) (x : ℝ) : ℝ := ((round (x * 10 ^ p) : ℤ) : ℝ) / 10 ^ p

/-- Geographic location (`engine.py` dataclass `Location`). -/
structure Location where
  lat : ℝ
  lon : ℝ

noncomputable instance : DecidableEq Location := Classical.decEq _

/-- Intermediate value `a` of `Location.distance_to` (`engine.py` lines 33-39):
`a = sin(dlat/2)**2 + cos(lat1)*cos(lat2)*sin(dlon/2)**2` where
`lat1 = radians(self.lat)`, `lat2 = radians(other.lat)`,
`dlat = radians(other.lat - self.lat)`, `dlon = radians(other.lon - self.lon)`. -/
noncomputable def Location.havA (self other : Location) : ℝ :=
  Real.sin (radians (other.lat - self.lat) / 2) ^ 2 +
    Real.cos (radians self.lat) * Real.cos (radians other.lat) *
      Real.sin (radians (other.lon - self.lon) / 2) ^ 2

/-- The method `Location.distance_to` (`engine.py` lines 25-42): Haversine distance
in kilometres, `R = 6371.0`, `c = 2 * atan2(sqrt(a), sqrt(1 - a))`, result `R * c`. -/
noncomputable def Location.distance_to (self other : Location) : ℝ :=
  6371 * (2 * atan2 (Real.sqrt (Location.havA self other))
    (Real.sqrt (1 - Location.havA self other)))

/-- Demand point (`engine.py` dataclass `DemandPoint`). -/
structure DemandPoint where
  id : ℤ
  node_id : String
  location : Location
  urgency : ℤ
  resource_type : Option String
  quantity : ℤ
  timestamp : ℤ

noncomputable instance : DecidableEq DemandPoint := Classical.decEq _

/-- Vehicle (`engine.py` dataclass `Vehicle`). -/
structure Vehicle where
  depot : Location
  capacity : ℤ := 100

/-- One entry of the `stops` list built by the three route builders
(`engine.py` lines 103-111 and analogues). -/
structure Stop where
  lat : ℝ
  lon : ℝ
  node_id : String
  resource_type : Option String
  quantity : ℤ
  urgency : ℤ
  distance_from_prev_km : ℝ

/-- Location recorded in a stop. -/
def Stop.loc (s : Stop) : Location := ⟨s.lat, s.lon⟩

/-- The demand-point data carried by a stop, without the route-dependent
`distance_from_prev_km` field. -/
def Stop.core (s : Stop) : ℝ × ℝ × String × Option String × ℤ × ℤ :=
  (s.lat, s.lon, s.node_id, s.resource_type, s.quantity, s.urgency)

/-- The projection of a demand point that the builders copy into a stop. -/
def DemandPoint.core (d : DemandPoint) : ℝ × ℝ × String × Option String × ℤ × ℤ :=
  (d.location.lat, d.location.lon, d.node_id, d.resource_type, d.quantity, d.urgency)

/-- Metadata mapping of a route plan.  The Python dicts hold the `algorithm` key
always, `return_to_depot_km` only on the non-empty path, and the two weights only
for the blended builder. -/
structure RouteMetadata where
  algorithm : String
  return_to_depot_km : Option ℝ := none
  urgency_weight : Option ℝ := none
  distance_weight : Option ℝ := none

/-- Route plan dict returned by the builders.  `depot_lat`/`depot_lon` are `Option`
because the empty-input special case omits those keys entirely. -/
structure RoutePlan where
  mode : String
  depot_lat : Option ℝ
  depot_lon : Option ℝ
  stops : List Stop
  total_distance_km : ℝ
  estimated_time_minutes : ℝ
  urgent_requests_served : ℕ
  metadata : RouteMetadata

/-- Python `min(best :: rest, key=f)`: scan keeping the current best, replacing it
only when the new key is strictly smaller, so the first minimum wins ties. -/
noncomputable def pyMin {α : Type} (f : α → ℝ) (best : α) : List α → α
  | [] => best
  | x :: xs => if f x < f best then pyMin f x xs else pyMin f best xs

/-- The linear scan of `blended_route` (`engine.py` lines 267-279): keep the
best-so-far and replace it only on a strictly greater score, starting from
`best_score = -inf` so the first element is always taken. -/
noncomputable def pyArgmax {α : Type} (f : α → ℝ) (best : α) : List α → α
  | [] => best
  | x :: xs => if f best < f x then pyArgmax f x xs else pyArgmax f best xs

/-- Python `max` of `f` over a non-empty list, written as a fold from the first
value of the first element. -/
noncomputable def foldMax {α : Type} (f : α → ℝ) (acc : ℝ) : List α → ℝ
  | [] => acc
  | x :: xs => foldMax f (max acc (f x)) xs

/-- Selection step of `distance_focused_route` (`engine.py` line 98):
`min(remaining, key=lambda d: current_location.distance_to(d.location))` on the
non-empty remaining list `d :: ds`. -/
noncomputable def selectNearest (cur : Location) (d : DemandPoint) (ds : List DemandPoint) :
    DemandPoint :=
  pyMin (fun x => cur.distance_to x.location) d ds

/-- Maximum of `current_location.distance_to(d.location)` over the non-empty
remaining list `d :: ds` (`engine.py` lines 261-264, before the `or 1.0`). -/
noncomputable def maxDistTo (cur : Location) (d : DemandPoint) (ds : List DemandPoint) : ℝ :=
  foldMax (fun x => cur.distance_to x.location) (cur.distance_to d.location) ds

/-- Blended score (`engine.py` line 275):
`urgency_weight * urgency - distance_weight * (distance / max_dist)`. -/
noncomputable def blendedScore (uw dw : ℝ) (cur : Location) (max_dist : ℝ)
    (x : DemandPoint) : ℝ :=
  uw * (x.urgency : ℝ) - dw * (cur.distance_to x.location / max_dist)

/-- Selection step of `blended_route` (`engine.py` lines 259-279): normalise by
`max(...) or 1.0` and take the first strict argmax of the score. -/
noncomputable def selectBlended (uw dw : ℝ) (cur : Location) (d : DemandPoint)
    (ds : List DemandPoint) : DemandPoint :=
  pyArgmax (blendedScore uw dw cur
    (if maxDistTo cur d ds = 0 then 1 else maxDistTo cur d ds)) d ds

/-- The greedy `while remaining:` loop shared by the distance-focused and blended
builders, returning the order in which demand points are visited.  `sel` picks the
next point from the non-empty remaining list; the chosen point is removed with
`remaining.remove(...)`, i.e. the first structurally equal element is erased.
The fuel argument equals the length of the remaining list. -/
noncomputable def greedyOrder
    (sel : Location → DemandPoint → List DemandPoint → DemandPoint)
    (n : ℕ) (cur : Location) (remaining : List DemandPoint) : List DemandPoint :=
  match n, remaining with
  | 0, _ => []
  | _ + 1, [] => []
  | n + 1, d :: ds =>
    let chosen := sel cur d ds
    chosen :: greedyOrder sel n chosen.location ((d :: ds).erase chosen)

/-- The stop record appended for the demand point `d` reached from `cur`
(`engine.py` lines 103-111). -/
noncomputable def mkStop (cur : Location) (d : DemandPoint) : Stop :=
  { lat := d.location.lat
    lon := d.location.lon
    node_id := d.node_id
    resource_type := d.resource_type
    quantity := d.quantity
    urgency := d.urgency
    distance_from_prev_km := roundTo 2 (cur.distance_to d.location) }

/-- The `route` list built along a visiting order, threading `current_location`. -/
noncomputable def mkStops (cur : Location) : List DemandPoint → List Stop
  | [] => []
  | d :: ds => mkStop cur d :: mkStops d.location ds

/-- Sum of the leg distances along a visiting order (no return leg). -/
noncomputable def pathDistance (cur : Location) : List DemandPoint → ℝ
  | [] => 0
  | d :: ds => cur.distance_to d.location + pathDistance d.location ds

/-- The value of `current_location` after visiting the whole order. -/
def lastLocation (depot : Location) : List DemandPoint → Location
  | [] => depot
  | d :: ds => lastLocation d.location ds

/-- The accumulated `total_distance` after the return-to-depot leg is added. -/
noncomputable def totalDistance (depot : Location) (order : List DemandPoint) : ℝ :=
  pathDistance depot order + (lastLocation depot order).distance_to depot

/-- The `urgent_count` accumulated by the builders: one per visited demand point
with `urgency >= 2`. -/
def urgentCount (order : List DemandPoint) : ℕ :=
  order.countP fun d => decide (2 ≤ d.urgency)

/-- Visiting order of `distance_focused_route` (`engine.py` lines 90-117). -/
noncomputable def distance_focused_order (demands : List DemandPoint) (vehicle : Vehicle) :
    List DemandPoint :=
  greedyOrder selectNearest demands.length vehicle.depot demands

/-- The function `distance_focused_route` (`engine.py` lines 64-138). -/
noncomputable def distance_focused_route (demands : List DemandPoint) (vehicle : Vehicle) :
    RoutePlan :=
  match demands with
  | [] =>
    { mode := "distance"
      depot_lat := none
      depot_lon := none
      stops := []
      total_distance_km := 0
      estimated_time_minutes := 0
      urgent_requests_served := 0
      metadata := { algorithm := "nearest_neighbor" } }
  | d :: ds =>
    let order := distance_focused_order (d :: ds) vehicle
    let total_distance := totalDistance vehicle.depot order
    let return_distance := (lastLocation vehicle.depot order).distance_to vehicle.depot
    let route := mkStops vehicle.depot order
    { mode := "distance"
      depot_lat := some vehicle.depot.lat
      depot_lon := some vehicle.depot.lon
      stops := route
      total_distance_km := roundTo 2 total_distance
      estimated_time_minutes := roundTo 1 (total_distance / 40 * 60 + (route.length : ℝ) * 10)
      urgent_requests_served := urgentCount order
      metadata := { algorithm := "nearest_neighbor"
                    return_to_depot_km := some (roundTo 2 return_distance) } }

/-- Sort key order of `priority_focused_route` (`engine.py` lines 167-171): the
ascending lexicographic order on `(-urgency, timestamp)`. -/
def prioLE (x y : DemandPoint) : Bool :=
  decide (y.urgency < x.urgency) || (x.urgency == y.urgency && decide (x.timestamp ≤ y.timestamp))

/-- Visiting order of `priority_focused_route`: the input sorted once, stably,
ascending by `(-urgency, timestamp)`. -/
def priority_focused_order (demands : List DemandPoint) : List DemandPoint :=
  demands.mergeSort prioLE

/-- The function `priority_focused_route` (`engine.py` lines 141-216). -/
noncomputable def priority_focused_route (demands : List DemandPoint) (vehicle : Vehicle) :
    RoutePlan :=
  match demands with
  | [] =>
    { mode := "priority"
      depot_lat := none
      depot_lon := none
      stops := []
      total_distance_km := 0
      estimated_time_minutes := 0
      urgent_requests_served := 0
      metadata := { algorithm := "urgency_first" } }
  | d :: ds =>
    let order := priority_focused_order (d :: ds)
    let total_distance := totalDistance vehicle.depot order
    let return_distance := (lastLocation vehicle.depot order).distance_to vehicle.depot
    let route := mkStops vehicle.depot order
    { mode := "priority"
      depot_lat := some vehicle.depot.lat
      depot_lon := some vehicle.depot.lon
      stops := route
      total_distance_km := roundTo 2 total_distance
      estimated_time_minutes := roundTo 1 (total_distance / 40 * 60 + (route.length : ℝ) * 10)
      urgent_requests_served := urgentCount order
      metadata := { algorithm := "urgency_first"
                    return_to_depot_km := some (roundTo 2 return_distance) } }

/-- Visiting order of `blended_route` (`engine.py` lines 259-299). -/
noncomputable def blended_order (demands : List DemandPoint) (vehicle : Vehicle)
    (urgency_weight distance_weight : ℝ) : List DemandPoint :=
  greedyOrder (selectBlended urgency_weight distance_weight) demands.length vehicle.depot demands

/-- The function `blended_route` (`engine.py` lines 219-322). -/
noncomputable def blended_route (demands : List DemandPoint) (vehicle : Vehicle)
    (urgency_weight distance_weight : ℝ) : RoutePlan :=
  match demands with
  | [] =>
    { mode := "blended"
      depot_lat := none
      depot_lon := none
      stops := []
      total_distance_km := 0
      estimated_time_minutes := 0
      urgent_requests_served := 0
      metadata := { algorithm := "weighted_scoring"
                    urgency_weight := some urgency_weight
                    distance_weight := some distance_weight } }
  | d :: ds =>
    let order := blended_order (d :: ds) vehicle urgency_weight distance_weight
    let total_distance := totalDistance vehicle.depot order
    let return_distance := (lastLocation vehicle.depot order).distance_to vehicle.depot
    let route := mkStops vehicle.depot order
    { mode := "blended"
      depot_lat := some vehicle.depot.lat
      depot_lon := some vehicle.depot.lon
      stops := route
      total_distance_km := roundTo 2 total_distance
      estimated_time_minutes := roundTo 1 (total_distance / 40 * 60 + (route.length : ℝ) * 10)
      urgent_requests_served := urgentCount order
      metadata := { algorithm := "weighted_scoring"
                    urgency_weight := some urgency_weight
                    distance_weight := some distance_weight
                    return_to_depot_km := some (roundTo 2 return_distance) } }

/-- The Haversine formula exactly as displayed in the specification (§4.1):
`Δlat = radians(b.lat - a.lat)`, `Δlon = radians(b.lon - a.lon)`,
`h = sin²(Δlat/2) + cos(radians(a.lat))·cos(radians(b.lat))·sin²(Δlon/2)`,
`distance = 2 · R · atan2(√h, √(1-h))` with `R = 6371.0`. -/
noncomputable def haversineSpec (a b : Location) : ℝ :=
  2 * 6371 * atan2
    (Real.sqrt (Real.sin (radians (b.lat - a.lat) / 2) ^ 2 +
      Real.cos (radians a.lat) * Real.cos (radians b.lat) *
        Real.sin (radians (b.lon - a.lon) / 2) ^ 2))
    (Real.sqrt (1 - (Real.sin (radians (b.lat - a.lat) / 2) ^ 2 +
      Real.cos (radians a.lat) * Real.cos (radians b.lat) *
        Real.sin (radians (b.lon - a.lon) / 2) ^ 2)))

/-- The greedy nearest-neighbour construction as the claim describes it: from the
current location, the next stop is a remaining demand point whose location
minimises the distance from the current location, such that every remaining point
listed before it is strictly farther (first occurrence wins ties); the chosen
point becomes the new current location and is removed from the remaining list. -/
inductive NNBuild : Location → List DemandPoint → List DemandPoint → Prop
  | nil (cur : Location) : NNBuild cur [] []
  | step (cur : Location) (remaining rest : List DemandPoint) (chosen : DemandPoint)
      (pre post : List DemandPoint)
      (hsplit : remaining = pre ++ chosen :: post)
      (hpre : ∀ x ∈ pre, cur.distance_to chosen.location < cur.distance_to x.location)
      (hmin : ∀ x ∈ remaining, cur.distance_to chosen.location ≤ cur.distance_to x.location)
      (hrec : NNBuild chosen.location (remaining.erase chosen) rest) :
      NNBuild cur remaining (chosen :: rest)

/-- The blended greedy construction as the claim describes it: at each step `M` is
the maximum distance from the current location to a remaining demand (with `1.0`
substituted when it is `0`), every remaining demand is scored by
`urgency_weight * urgency - distance_weight * (distance / M)`, and the chosen
demand has the greatest score with every remaining point listed before it scoring
strictly less (the scan replaces the best-so-far only on strict improvement). -/
inductive BlendedBuild (uw dw : ℝ) : Location → List DemandPoint → List DemandPoint → Prop
  | nil (cur : Location) : BlendedBuild uw dw cur [] []
  | step (cur : Location) (remaining rest : List DemandPoint) (chosen : DemandPoint)
      (pre post : List DemandPoint) (M : ℝ)
      (hub : ∀ x ∈ remaining, cur.distance_to x.location ≤ M)
      (hmem : ∃ x ∈ remaining, cur.distance_to x.location = M)
      (hsplit : remaining = pre ++ chosen :: post)
      (hpre : ∀ x ∈ pre,
        blendedScore uw dw cur (if M = 0 then 1 else M) x <
          blendedScore uw dw cur (if M = 0 then 1 else M) chosen)
      (hmax : ∀ x ∈ remaining,
        blendedScore uw dw cur (if M = 0 then 1 else M) x ≤
          blendedScore uw dw cur (if M = 0 then 1 else M) chosen)
      (hrec : BlendedBuild uw dw chosen.location (remaining.erase chosen) rest) :
      BlendedBuild uw dw cur remaining (chosen :: rest)

/-- The stops of a plan carry, as `distance_from_prev_km`, the rounded distance of
the leg from the previous stop (or the given depot, for the first stop). -/
def legsOK (cur : Location) : List Stop → Prop
  | [] => True
  | s :: ss => s.distance_from_prev_km = roundTo 2 (cur.distance_to s.loc) ∧ legsOK s.loc ss

/-- A plan neither drops nor duplicates demands: as many stops as demands, the
stop data a permutation of the demand data (with multiplicity), and
`urgent_requests_served` counting exactly the emitted stops of urgency ≥ 2. -/
def PreservesDemands (plan : RoutePlan) (demands : List DemandPoint) : Prop :=
  plan.stops.length = demands.length ∧
    (plan.stops.map Stop.core).Perm (demands.map DemandPoint.core) ∧
    plan.urgent_requests_served = plan.stops.countP fun s => decide (2 ≤ s.urgency)

/-- Concrete demand point on the equator antipodal to the origin. -/
noncomputable def antipodeDemand : DemandPoint :=
  { id := 1
    node_id := "n1"
    location := { lat := 0, lon := 180 }
    urgency := 3
    resource_type := none
    quantity := 1
    timestamp := 0 }

/-- Concrete vehicle whose depot is the origin. -/
noncomputable def originVehicle : Vehicle := { depot := { lat := 0, lon := 0 } }

theorem atan2_zero_one : atan2 0 1 = 0 := by
  have h : (⟨1, 0⟩ : ℂ) = 1 := by
    apply Complex.ext <;> simp
  rw [atan2, h, Complex.arg_one]

theorem atan2_one_zero : atan2 1 0 = Real.pi / 2 := by
  have h : (⟨0, 1⟩ : ℂ) = Complex.I := by
    apply Complex.ext <;> simp
  rw [atan2, h, Complex.arg_I]

theorem radians_zero : radians 0 = 0 := by
  simp [radians]

theorem Location.havA_self (a : Location) : Location.havA a a = 0 := by
  simp [Location.havA, radians]

theorem Location.havA_comm (a b : Location) : Location.havA a b = Location.havA b a := by
  have hs : ∀ u v : ℝ, Real.sin (radians (u - v) / 2) ^ 2 = Real.sin (radians (v - u) / 2) ^ 2 := by
    intro u v
    have h : radians (u - v) / 2 = -(radians (v - u) / 2) := by
      unfold radians; ring
    rw [h, Real.sin_neg]
    ring
  unfold Location.havA
  rw [hs b.lat a.lat, hs b.lon a.lon,
    mul_comm (Real.cos (radians a.lat)) (Real.cos (radians b.lat))]

theorem Location.distance_eq_zero_of_havA (a b : Location) (h : Location.havA a b = 0) :
    a.distance_to b = 0 := by
  unfold Location.distance_to
  rw [h, Real.sqrt_zero, sub_zero, Real.sqrt_one, atan2_zero_one]
  ring

theorem Location.distance_self (a : Location) : a.distance_to a = 0 :=
  Location.distance_eq_zero_of_havA a a (Location.havA_self a)

theorem Location.distance_comm (a b : Location) : a.distance_to b = b.distance_to a := by
  unfold Location.distance_to
  rw [Location.havA_comm]

theorem Location.distance_nonneg (a b : Location) : 0 ≤ a.distance_to b := by
  have h : 0 ≤ atan2 (Real.sqrt (Location.havA a b)) (Real.sqrt (1 - Location.havA a b)) := by
    rw [atan2]
    exact Complex.arg_nonneg_iff.2 (Real.sqrt_nonneg _)
  unfold Location.distance_to
  nlinarith [h]

/-- C5: `Location.distance_to` computes exactly the Haversine great-circle formula
of the specification, with Earth radius 6371.0 km: the value `R * c` computed by
the source, with `c = 2 * atan2(sqrt h, sqrt (1-h))`, equals
`2 * 6371.0 * atan2(sqrt h, sqrt (1-h))` for the `h` of the specification. -/
theorem C5_distance_is_haversine (a b : Location) : a.distance_to b = haversineSpec a b := by
  unfold Location.distance_to Location.havA haversineSpec
  ring

theorem roundTo_zero (p : ℕ) : roundTo p 0 = 0 := by
  simp [roundTo]

/-- The rounded value is a multiple of `10 ^ (-p)`, so it cannot equal a value
whose scaling by `10 ^ p` lies strictly between two consecutive integers. -/
theorem roundTo_ne_self_of_between (p : ℕ) (x : ℝ) (k : ℤ)
    (h1 : (k : ℝ) < x * 10 ^ p) (h2 : x * 10 ^ p < (k : ℝ) + 1) : roundTo p x ≠ x := by
  intro he
  have hp : (0 : ℝ) < 10 ^ p := by positivity
  have hm : ((round (x * 10 ^ p) : ℤ) : ℝ) = x * 10 ^ p := by
    have h := he
    unfold roundTo at h
    rw [div_eq_iff (ne_of_gt hp)] at h
    exact h
  rw [← hm] at h1 h2
  have hk1 : k < round (x * 10 ^ p) := by exact_mod_cast h1
  have hk2 : round (x * 10 ^ p) < k + 1 := by exact_mod_cast h2
  omega

theorem havA_equator (l1 l2 : ℝ) :
    Location.havA ⟨0, l1⟩ ⟨0, l2⟩ = Real.sin (radians (l2 - l1) / 2) ^ 2 := by
  show Real.sin (radians ((0 : ℝ) - 0) / 2) ^ 2 +
      Real.cos (radians 0) * Real.cos (radians 0) * Real.sin (radians (l2 - l1) / 2) ^ 2 = _
  rw [show ((0 : ℝ) - 0) = 0 by norm_num, radians_zero]
  simp

theorem havA_origin_antipode : Location.havA ⟨0, 0⟩ ⟨0, 180⟩ = 1 := by
  rw [havA_equator]
  have h : radians ((180 : ℝ) - 0) / 2 = Real.pi / 2 := by
    unfold radians; ring
  rw [h, Real.sin_pi_div_two, one_pow]

theorem dist_origin_antipode : Location.distance_to ⟨0, 0⟩ ⟨0, 180⟩ = 6371 * Real.pi := by
  unfold Location.distance_to
  rw [havA_origin_antipode, sub_self, Real.sqrt_zero, Real.sqrt_one, atan2_one_zero]
  ring

theorem dist_antipode_origin : Location.distance_to ⟨0, 180⟩ ⟨0, 0⟩ = 6371 * Real.pi := by
  rw [Location.distance_comm, dist_origin_antipode]

attribute [irreducible] radians atan2 Location.havA Location.distance_to roundTo

theorem distance_focused_route_cons (d : DemandPoint) (ds : List DemandPoint) (v : Vehicle) :
    distance_focused_route (d :: ds) v =
      { mode := "distance"
        depot_lat := some v.depot.lat
        depot_lon := some v.depot.lon
        stops := mkStops v.depot (distance_focused_order (d :: ds) v)
        total_distance_km := roundTo 2 (totalDistance v.depot (distance_focused_order (d :: ds) v))
        estimated_time_minutes := roundTo 1
          (totalDistance v.depot (distance_focused_order (d :: ds) v) / 40 * 60 +
            ((mkStops v.depot (distance_focused_order (d :: ds) v)).length : ℝ) * 10)
        urgent_requests_served := urgentCount (distance_focused_order (d :: ds) v)
        metadata := { algorithm := "nearest_neighbor"
                      return_to_depot_km := some (roundTo 2
                        ((lastLocation v.depot (distance_focused_order (d :: ds) v)).distance_to
                          v.depot)) } } := rfl

theorem priority_focused_route_cons (d : DemandPoint) (ds : List DemandPoint) (v : Vehicle) :
    priority_focused_route (d :: ds) v =
      { mode := "priority"
        depot_lat := some v.depot.lat
        depot_lon := some v.depot.lon
        stops := mkStops v.depot (priority_focused_order (d :: ds))
        total_distance_km := roundTo 2 (totalDistance v.depot (priority_focused_order (d :: ds)))
        estimated_time_minutes := roundTo 1
          (totalDistance v.depot (priority_focused_order (d :: ds)) / 40 * 60 +
            ((mkStops v.depot (priority_focused_order (d :: ds))).length : ℝ) * 10)
        urgent_requests_served := urgentCount (priority_focused_order (d :: ds))
        metadata := { algorithm := "urgency_first"
                      return_to_depot_km := some (roundTo 2
                        ((lastLocation v.depot (priority_focused_order (d :: ds))).distance_to
                          v.depot)) } } := rfl

theorem blended_route_cons (d : DemandPoint) (ds : List DemandPoint) (v : Vehicle) (uw dw : ℝ) :
    blended_route (d :: ds) v uw dw =
      { mode := "blended"
        depot_lat := some v.depot.lat
        depot_lon := some v.depot.lon
        stops := mkStops v.depot (blended_order (d :: ds) v uw dw)
        total_distance_km := roundTo 2 (totalDistance v.depot (blended_order (d :: ds) v uw dw))
        estimated_time_minutes := roundTo 1
          (totalDistance v.depot (blended_order (d :: ds) v uw dw) / 40 * 60 +
            ((mkStops v.depot (blended_order (d :: ds) v uw dw)).length : ℝ) * 10)
        urgent_requests_served := urgentCount (blended_order (d :: ds) v uw dw)
        metadata := { algorithm := "weighted_scoring"
                      urgency_weight := some uw
                      distance_weight := some dw
                      return_to_depot_km := some (roundTo 2
                        ((lastLocation v.depot (blended_order (d :: ds) v uw dw)).distance_to
                          v.depot)) } } := rfl

/-- C10: on an empty demand list each builder returns a well-formed plan with its
own mode, empty stops, zero metrics, its algorithm name in the metadata and no
depot coordinates, while every non-empty call does populate the depot fields. -/
theorem C10_empty_input (vehicle : Vehicle) (uw dw : ℝ) :
    distance_focused_route [] vehicle =
      { mode := "distance", depot_lat := none, depot_lon := none, stops := [],
        total_distance_km := 0, estimated_time_minutes := 0, urgent_requests_served := 0,
        metadata := { algorithm := "nearest_neighbor" } } ∧
    priority_focused_route [] vehicle =
      { mode := "priority", depot_lat := none, depot_lon := none, stops := [],
        total_distance_km := 0, estimated_time_minutes := 0, urgent_requests_served := 0,
        metadata := { algorithm := "urgency_first" } } ∧
    blended_route [] vehicle uw dw =
      { mode := "blended", depot_lat := none, depot_lon := none, stops := [],
        total_distance_km := 0, estimated_time_minutes := 0, urgent_requests_served := 0,
        metadata := { algorithm := "weighted_scoring", urgency_weight := some uw,
                      distance_weight := some dw } } ∧
    (∀ (d : DemandPoint) (ds : List DemandPoint),
      (distance_focused_route (d :: ds) vehicle).depot_lat = some vehicle.depot.lat ∧
      (distance_focused_route (d :: ds) vehicle).depot_lon = some vehicle.depot.lon ∧
      (priority_focused_route (d :: ds) vehicle).depot_lat = some vehicle.depot.lat ∧
      (priority_focused_route (d :: ds) vehicle).depot_lon = some vehicle.depot.lon ∧
      (blended_route (d :: ds) vehicle uw dw).depot_lat = some vehicle.depot.lat ∧
      (blended_route (d :: ds) vehicle uw dw).depot_lon = some vehicle.depot.lon) :=
  ⟨rfl, rfl, rfl, fun _ _ => ⟨rfl, rfl, rfl, rfl, rfl, rfl⟩⟩

/-- Characterisation of the Python `min` scan: the result is a minimum of the list
`d :: ds`, and every element listed before its selected occurrence has a strictly
larger key (the first minimum wins ties). -/
theorem pyMin_spec {α : Type} (f : α → ℝ) (d : α) (ds : List α) :
    (∀ x ∈ d :: ds, f (pyMin f d ds) ≤ f x) ∧
      ∃ pre post, d :: ds = pre ++ pyMin f d ds :: post ∧
        ∀ x ∈ pre, f (pyMin f d ds) < f x := by
  induction ds generalizing d with
  | nil =>
    constructor
    · intro x hx
      rw [List.mem_singleton] at hx
      subst hx
      exact le_refl _
    · exact ⟨[], [], rfl, by simp⟩
  | cons x xs ih =>
    by_cases h : f x < f d
    · have he : pyMin f d (x :: xs) = pyMin f x xs := by
        simp only [pyMin, if_pos h]
      obtain ⟨hmin, pre, post, hsplit, hpre⟩ := ih x
      rw [he]
      refine ⟨?_, d :: pre, post, ?_, ?_⟩
      · intro y hy
        rcases List.mem_cons.1 hy with rfl | hy2
        · exact le_of_lt (lt_of_le_of_lt (hmin x (List.mem_cons_self x xs)) h)
        · exact hmin y hy2
      · rw [List.cons_append, ← hsplit]
      · intro y hy
        rcases List.mem_cons.1 hy with rfl | hy2
        · exact lt_of_le_of_lt (hmin x (List.mem_cons_self x xs)) h
        · exact hpre y hy2
    · have he : pyMin f d (x :: xs) = pyMin f d xs := by
        simp only [pyMin, if_neg h]
      push_neg at h
      obtain ⟨hmin, pre, post, hsplit, hpre⟩ := ih d
      rw [he]
      constructor
      · intro y hy
        rcases List.mem_cons.1 hy with rfl | hy2
        · exact hmin _ (List.mem_cons_self _ xs)
        · rcases List.mem_cons.1 hy2 with rfl | hy3
          · exact le_trans (hmin d (List.mem_cons_self d xs)) h
          · exact hmin y (List.mem_cons_of_mem d hy3)
      · cases pre with
        | nil =>
          rw [List.nil_append] at hsplit
          injection hsplit with h1 h2
          refine ⟨[], x :: xs, ?_, by simp⟩
          rw [List.nil_append, ← h1]
        | cons p pre2 =>
          rw [List.cons_append] at hsplit
          injection hsplit with h1 h2
          have hmd : f (pyMin f d xs) < f d := by
            have hp := hpre p (List.mem_cons_self p pre2)
            rwa [← h1] at hp
          refine ⟨d :: x :: pre2, post, ?_, ?_⟩
          · rw [List.cons_append, List.cons_append, ← h2]
          · intro y hy
            rcases List.mem_cons.1 hy with rfl | hy2
            · exact hmd
            · rcases List.mem_cons.1 hy2 with rfl | hy3
              · exact lt_of_lt_of_le hmd h
              · exact hpre y (List.mem_cons_of_mem p hy3)

/-- Characterisation of the strict best-so-far scan of `blended_route`: the result
is a maximum of the list `d :: ds`, and every element listed before its selected
occurrence scores strictly less (the first maximum wins ties). -/
theorem pyArgmax_spec {α : Type} (f : α → ℝ) (d : α) (ds : List α) :
    (∀ x ∈ d :: ds, f x ≤ f (pyArgmax f d ds)) ∧
      ∃ pre post, d :: ds = pre ++ pyArgmax f d ds :: post ∧
        ∀ x ∈ pre, f x < f (pyArgmax f d ds) := by
  induction ds generalizing d with
  | nil =>
    constructor
    · intro x hx
      rw [List.mem_singleton] at hx
      subst hx
      exact le_refl _
    · exact ⟨[], [], rfl, by simp⟩
  | cons x xs ih =>
    by_cases h : f d < f x
    · have he : pyArgmax f d (x :: xs) = pyArgmax f x xs := by
        simp only [pyArgmax, if_pos h]
      obtain ⟨hmax, pre, post, hsplit, hpre⟩ := ih x
      rw [he]
      refine ⟨?_, d :: pre, post, ?_, ?_⟩
      · intro y hy
        rcases List.mem_cons.1 hy with rfl | hy2
        · exact le_of_lt (lt_of_lt_of_le h (hmax x (List.mem_cons_self x xs)))
        · exact hmax y hy2
      · rw [List.cons_append, ← hsplit]
      · intro y hy
        rcases List.mem_cons.1 hy with rfl | hy2
        · exact lt_of_lt_of_le h (hmax x (List.mem_cons_self x xs))
        · exact hpre y hy2
    · have he : pyArgmax f d (x :: xs) = pyArgmax f d xs := by
        simp only [pyArgmax, if_neg h]
      push_neg at h
      obtain ⟨hmax, pre, post, hsplit, hpre⟩ := ih d
      rw [he]
      constructor
      · intro y hy
        rcases List.mem_cons.1 hy with rfl | hy2
        · exact hmax _ (List.mem_cons_self _ xs)
        · rcases List.mem_cons.1 hy2 with rfl | hy3
          · exact le_trans h (hmax d (List.mem_cons_self d xs))
          · exact hmax y (List.mem_cons_of_mem d hy3)
      · cases pre with
        | nil =>
          rw [List.nil_append] at hsplit
          injection hsplit with h1 h2
          refine ⟨[], x :: xs, ?_, by simp⟩
          rw [List.nil_append, ← h1]
        | cons p pre2 =>
          rw [List.cons_append] at hsplit
          injection hsplit with h1 h2
          have hmd : f d < f (pyArgmax f d xs) := by
            have hp := hpre p (List.mem_cons_self p pre2)
            rwa [← h1] at hp
          refine ⟨d :: x :: pre2, post, ?_, ?_⟩
          · rw [List.cons_append, List.cons_append, ← h2]
          · intro y hy
            rcases List.mem_cons.1 hy with rfl | hy2
            · exact hmd
            · rcases List.mem_cons.1 hy2 with rfl | hy3
              · exact lt_of_le_of_lt h hmd
              · exact hpre y (List.mem_cons_of_mem p hy3)

theorem pyMin_mem {α : Type} (f : α → ℝ) (d : α) (ds : List α) : pyMin f d ds ∈ d :: ds := by
  obtain ⟨-, pre, post, hsplit, -⟩ := pyMin_spec f d ds
  rw [hsplit]
  exact List.mem_append_right _ (List.mem_cons_self _ _)

theorem pyArgmax_mem {α : Type} (f : α → ℝ) (d : α) (ds : List α) :
    pyArgmax f d ds ∈ d :: ds := by
  obtain ⟨-, pre, post, hsplit, -⟩ := pyArgmax_spec f d ds
  rw [hsplit]
  exact List.mem_append_right _ (List.mem_cons_self _ _)

theorem selectNearest_mem (cur : Location) (d : DemandPoint) (ds : List DemandPoint) :
    selectNearest cur d ds ∈ d :: ds :=
  pyMin_mem _ d ds

theorem selectBlended_mem (uw dw : ℝ) (cur : Location) (d : DemandPoint)
    (ds : List DemandPoint) : selectBlended uw dw cur d ds ∈ d :: ds :=
  pyArgmax_mem _ d ds

theorem le_foldMax_acc {α : Type} (f : α → ℝ) (xs : List α) :
    ∀ acc : ℝ, acc ≤ foldMax f acc xs := by
  induction xs with
  | nil =>
    intro acc
    exact le_refl _
  | cons x xs ih =>
    intro acc
    show acc ≤ foldMax f (max acc (f x)) xs
    exact le_trans (le_max_left _ _) (ih _)

theorem le_foldMax_of_mem {α : Type} (f : α → ℝ) (xs : List α) :
    ∀ (acc : ℝ) (x : α), x ∈ xs → f x ≤ foldMax f acc xs := by
  induction xs with
  | nil =>
    intro acc x hx
    simp at hx
  | cons y ys ih =>
    intro acc x hx
    show f x ≤ foldMax f (max acc (f y)) ys
    rcases List.mem_cons.1 hx with rfl | hx2
    · exact le_trans (le_max_right _ _) (le_foldMax_acc f ys _)
    · exact ih _ x hx2

theorem foldMax_eq_acc_or_mem {α : Type} (f : α → ℝ) (xs : List α) :
    ∀ acc : ℝ, foldMax f acc xs = acc ∨ ∃ x ∈ xs, foldMax f acc xs = f x := by
  induction xs with
  | nil =>
    intro acc
    exact Or.inl rfl
  | cons y ys ih =>
    intro acc
    have hg : foldMax f acc (y :: ys) = foldMax f (max acc (f y)) ys := rfl
    rcases ih (max acc (f y)) with h | ⟨x, hx, he⟩
    · rcases max_choice acc (f y) with hm | hm
      · exact Or.inl (by rw [hg, h, hm])
      · exact Or.inr ⟨y, List.mem_cons_self y ys, by rw [hg, h, hm]⟩
    · exact Or.inr ⟨x, List.mem_cons_of_mem y hx, by rw [hg, he]⟩

theorem maxDistTo_is_ub (cur : Location) (d : DemandPoint) (ds : List DemandPoint) :
    ∀ x ∈ d :: ds, cur.distance_to x.location ≤ maxDistTo cur d ds := by
  unfold maxDistTo
  intro x hx
  rcases List.mem_cons.1 hx with rfl | hx2
  · apply le_foldMax_acc
  · exact le_foldMax_of_mem (fun y => cur.distance_to y.location) ds
      (cur.distance_to d.location) x hx2

theorem maxDistTo_is_mem (cur : Location) (d : DemandPoint) (ds : List DemandPoint) :
    ∃ x ∈ d :: ds, cur.distance_to x.location = maxDistTo cur d ds := by
  unfold maxDistTo
  rcases foldMax_eq_acc_or_mem (fun x => cur.distance_to x.location) ds
      (cur.distance_to d.location) with h | ⟨x, hx, he⟩
  · exact ⟨d, List.mem_cons_self d ds, h.symm⟩
  · exact ⟨x, List.mem_cons_of_mem d hx, he.symm⟩

/-- The greedy loop visits a permutation of the remaining demands, for any
selection function that picks an element of the remaining list. -/
theorem greedyOrder_perm (sel : Location → DemandPoint → List DemandPoint → DemandPoint)
    (hsel : ∀ cur d ds, sel cur d ds ∈ d :: ds) :
    ∀ (n : ℕ) (cur : Location) (l : List DemandPoint), l.length = n →
      (greedyOrder sel n cur l).Perm l := by
  intro n
  induction n with
  | zero =>
    intro cur l hl
    rw [List.length_eq_zero] at hl
    subst hl
    exact List.Perm.refl _
  | succ n ih =>
    intro cur l hl
    cases l with
    | nil => simp at hl
    | cons d ds =>
      have hmem : sel cur d ds ∈ d :: ds := hsel cur d ds
      have hlen : ((d :: ds).erase (sel cur d ds)).length = n := by
        rw [List.length_erase_of_mem hmem]
        simp only [List.length_cons] at hl ⊢
        omega
      have hrec := ih (sel cur d ds).location _ hlen
      show (sel cur d ds :: greedyOrder sel n (sel cur d ds).location
        ((d :: ds).erase (sel cur d ds))).Perm (d :: ds)
      exact (hrec.cons (sel cur d ds)).trans (List.perm_cons_erase hmem).symm

theorem greedyOrder_singleton (sel : Location → DemandPoint → List DemandPoint → DemandPoint)
    (hsel1 : ∀ cur d, sel cur d [] = d) (cur : Location) (d : DemandPoint) :
    greedyOrder sel 1 cur [d] = [d] := by
  show sel cur d [] :: greedyOrder sel 0 (sel cur d []).location
    ([d].erase (sel cur d [])) = [d]
  rw [hsel1, List.erase_cons_head]
  rfl

theorem mkStops_length (cur : Location) (order : List DemandPoint) :
    (mkStops cur order).length = order.length := by
  induction order generalizing cur with
  | nil => rfl
  | cons d ds ih =>
    show (mkStops d.location ds).length + 1 = ds.length + 1
    rw [ih]

theorem mkStops_map_core (cur : Location) (order : List DemandPoint) :
    (mkStops cur order).map Stop.core = order.map DemandPoint.core := by
  induction order generalizing cur with
  | nil => rfl
  | cons d ds ih =>
    show Stop.core (mkStop cur d) :: (mkStops d.location ds).map Stop.core = _
    rw [ih]
    rfl

theorem mkStops_countP (cur : Location) (order : List DemandPoint) :
    (mkStops cur order).countP (fun s => decide (2 ≤ s.urgency)) = urgentCount order := by
  induction order generalizing cur with
  | nil => rfl
  | cons d ds ih =>
    show List.countP _ (mkStop cur d :: mkStops d.location ds) = _
    simp only [urgentCount] at ih ⊢
    rw [List.countP_cons, List.countP_cons, ih]
    rfl

theorem legsOK_mkStops (cur : Location) (order : List DemandPoint) :
    legsOK cur (mkStops cur order) := by
  induction order generalizing cur with
  | nil => trivial
  | cons d ds ih => exact ⟨rfl, ih d.location⟩

theorem preservesDemands_mk (cur : Location) (order demands : List DemandPoint)
    (hperm : order.Perm demands) (plan : RoutePlan)
    (hstops : plan.stops = mkStops cur order)
    (hurg : plan.urgent_requests_served = urgentCount order) :
    PreservesDemands plan demands := by
  refine ⟨?_, ?_, ?_⟩
  · rw [hstops, mkStops_length, hperm.length_eq]
  · rw [hstops, mkStops_map_core]
    exact hperm.map DemandPoint.core
  · rw [hstops, hurg, mkStops_countP]

/-- C1: for every demand list (in particular every non-empty one), vehicle and
weights, each of the three builders emits exactly one stop per input demand, the
emitted stop data is a permutation of the input demand data counting multiplicity,
and `urgent_requests_served` counts exactly the emitted stops with urgency ≥ 2. -/
theorem C1_no_drop_no_dup (demands : List DemandPoint) (vehicle : Vehicle) (uw dw : ℝ) :
    PreservesDemands (distance_focused_route demands vehicle) demands ∧
      PreservesDemands (priority_focused_route demands vehicle) demands ∧
      PreservesDemands (blended_route demands vehicle uw dw) demands := by
  cases demands with
  | nil =>
    exact ⟨⟨rfl, List.Perm.refl _, rfl⟩, ⟨rfl, List.Perm.refl _, rfl⟩,
      ⟨rfl, List.Perm.refl _, rfl⟩⟩
  | cons d ds =>
    have hp1 : (distance_focused_order (d :: ds) vehicle).Perm (d :: ds) :=
      greedyOrder_perm selectNearest selectNearest_mem (d :: ds).length vehicle.depot
        (d :: ds) rfl
    have hp2 : (priority_focused_order (d :: ds)).Perm (d :: ds) :=
      List.mergeSort_perm (d :: ds) prioLE
    have hp3 : (blended_order (d :: ds) vehicle uw dw).Perm (d :: ds) :=
      greedyOrder_perm (selectBlended uw dw) (selectBlended_mem uw dw) (d :: ds).length
        vehicle.depot (d :: ds) rfl
    refine ⟨?_, ?_, ?_⟩
    · rw [distance_focused_route_cons]
      exact preservesDemands_mk vehicle.depot _ _ hp1 _ rfl rfl
    · rw [priority_focused_route_cons]
      exact preservesDemands_mk vehicle.depot _ _ hp2 _ rfl rfl
    · rw [blended_route_cons]
      exact preservesDemands_mk vehicle.depot _ _ hp3 _ rfl rfl

theorem prioLE_trans (a b c : DemandPoint) (hab : prioLE a b = true) (hbc : prioLE b c = true) :
    prioLE a c = true := by
  simp only [prioLE, Bool.or_eq_true, Bool.and_eq_true, decide_eq_true_eq, beq_iff_eq]
    at hab hbc ⊢
  omega

theorem prioLE_total (a b : DemandPoint) : (prioLE a b || prioLE b a) = true := by
  simp only [prioLE, Bool.or_eq_true, Bool.and_eq_true, decide_eq_true_eq, beq_iff_eq]
  omega

/-- C2: `priority_focused_route` visits the demands in the order obtained by
sorting the input once ascending by `(-urgency, timestamp)`: its stops are built
along `priority_focused_order demands`, which is a permutation of the input in
which any strictly more urgent demand precedes any less urgent one and, among
equal urgencies, earlier timestamps come first. -/
theorem C2_priority_order (demands : List DemandPoint) (vehicle : Vehicle) :
    (priority_focused_route demands vehicle).stops =
        mkStops vehicle.depot (priority_focused_order demands) ∧
      (priority_focused_order demands).Perm demands ∧
      List.Pairwise (fun x y : DemandPoint =>
          y.urgency < x.urgency ∨ x.urgency = y.urgency ∧ x.timestamp ≤ y.timestamp)
        (priority_focused_order demands) := by
  refine ⟨?_, List.mergeSort_perm demands prioLE, ?_⟩
  · cases demands with
    | nil =>
      have hp : priority_focused_order [] = [] := by
        simp [priority_focused_order]
      rw [hp]
      rfl
    | cons d ds => rw [priority_focused_route_cons]
  · have hs := List.sorted_mergeSort prioLE_trans prioLE_total demands
    refine hs.imp ?_
    intro a b h
    simpa only [prioLE, Bool.or_eq_true, Bool.and_eq_true, decide_eq_true_eq,
      beq_iff_eq] using h

/-- C9 (amended): in every plan of the three builders, the field
`distance_from_prev_km` of each stop equals the leg distance from the previous stop (or the
depot for the first stop) rounded to two decimal places, as produced by
`round(distance, 2)` in the source. -/
theorem C9_leg_distances (demands : List DemandPoint) (vehicle : Vehicle) (uw dw : ℝ) :
    legsOK vehicle.depot (distance_focused_route demands vehicle).stops ∧
      legsOK vehicle.depot (priority_focused_route demands vehicle).stops ∧
      legsOK vehicle.depot (blended_route demands vehicle uw dw).stops := by
  cases demands with
  | nil => exact ⟨trivial, trivial, trivial⟩
  | cons d ds =>
    refine ⟨?_, ?_, ?_⟩
    · rw [distance_focused_route_cons]
      exact legsOK_mkStops vehicle.depot _
    · rw [priority_focused_route_cons]
      exact legsOK_mkStops vehicle.depot _
    · rw [blended_route_cons]
      exact legsOK_mkStops vehicle.depot _

/-- C8 (amended): the `estimated_time_minutes` of each builder equals the uniform
formula `total / 40 * 60 + stops_count * 10` applied to the un-rounded total
route distance, then rounded to one decimal place by `round(estimated_time, 1)`. -/
theorem C8_time_estimate (demands : List DemandPoint) (vehicle : Vehicle) (uw dw : ℝ) :
    (distance_focused_route demands vehicle).estimated_time_minutes =
        roundTo 1 (totalDistance vehicle.depot (distance_focused_order demands vehicle) /
          40 * 60 + ((distance_focused_route demands vehicle).stops.length : ℝ) * 10) ∧
      (priority_focused_route demands vehicle).estimated_time_minutes =
        roundTo 1 (totalDistance vehicle.depot (priority_focused_order demands) /
          40 * 60 + ((priority_focused_route demands vehicle).stops.length : ℝ) * 10) ∧
      (blended_route demands vehicle uw dw).estimated_time_minutes =
        roundTo 1 (totalDistance vehicle.depot (blended_order demands vehicle uw dw) /
          40 * 60 + ((blended_route demands vehicle uw dw).stops.length : ℝ) * 10) := by
  cases demands with
  | nil =>
    have h0 : totalDistance vehicle.depot [] = 0 := by
      show (0 : ℝ) + Location.distance_to vehicle.depot vehicle.depot = 0
      rw [Location.distance_self vehicle.depot]
      norm_num
    have hp : priority_focused_order [] = [] := by
      simp [priority_focused_order]
    refine ⟨?_, ?_, ?_⟩
    · show (0 : ℝ) = roundTo 1 (totalDistance vehicle.depot [] / 40 * 60 + ((0 : ℕ) : ℝ) * 10)
      rw [h0]
      norm_num [roundTo_zero]
    · show (0 : ℝ) = roundTo 1 (totalDistance vehicle.depot (priority_focused_order []) /
        40 * 60 + ((0 : ℕ) : ℝ) * 10)
      rw [hp, h0]
      norm_num [roundTo_zero]
    · show (0 : ℝ) = roundTo 1 (totalDistance vehicle.depot [] / 40 * 60 + ((0 : ℕ) : ℝ) * 10)
      rw [h0]
      norm_num [roundTo_zero]
  | cons d ds =>
    rw [distance_focused_route_cons, priority_focused_route_cons, blended_route_cons]
    exact ⟨rfl, rfl, rfl⟩

theorem distance_focused_order_singleton :
    distance_focused_order [antipodeDemand] originVehicle = [antipodeDemand] :=
  greedyOrder_singleton selectNearest (fun _ _ => rfl) originVehicle.depot antipodeDemand

theorem totalDistance_antipode :
    totalDistance originVehicle.depot [antipodeDemand] = 12742 * Real.pi := by
  show (Location.distance_to ⟨0, 0⟩ ⟨0, 180⟩ + (0 : ℝ)) +
      Location.distance_to ⟨0, 180⟩ ⟨0, 0⟩ = 12742 * Real.pi
  rw [dist_origin_antipode, dist_antipode_origin]
  ring

/-- C8 counterexample: for the single demand antipodal to the depot, the true
total distance is `12742 π` km, the claimed formula value `12742 π / 40 * 60 + 10`
is irrational, and the returned `estimated_time_minutes` is that value rounded to
one decimal place, hence not equal to it. -/
theorem C8_counterexample :
    (distance_focused_route [antipodeDemand] originVehicle).estimated_time_minutes ≠
      totalDistance originVehicle.depot (distance_focused_order [antipodeDemand]
          originVehicle) / 40 * 60 +
        ((distance_focused_route [antipodeDemand] originVehicle).stops.length : ℝ) * 10 := by
  rw [distance_focused_route_cons, distance_focused_order_singleton, totalDistance_antipode]
  simp only [mkStops_length, List.length_singleton, Nat.cast_one]
  exact roundTo_ne_self_of_between 1 _ 600552
    (by push_cast; nlinarith [Real.pi_gt_d6]) (by push_cast; nlinarith [Real.pi_lt_d6])

/-- C9 counterexample: for the single demand antipodal to the depot, the leg
distance is `6371 π` km, and the emitted `distance_from_prev_km` is that value
rounded to two decimal places, hence not equal to it. -/
theorem C9_counterexample :
    (distance_focused_route [antipodeDemand] originVehicle).stops.map
        Stop.distance_from_prev_km ≠
      [originVehicle.depot.distance_to antipodeDemand.location] := by
  rw [distance_focused_route_cons, distance_focused_order_singleton]
  intro h
  have h2 : [(mkStop originVehicle.depot antipodeDemand).distance_from_prev_km] =
      [originVehicle.depot.distance_to antipodeDemand.location] := h
  injection h2 with h1 htl
  have h3 : roundTo 2 (Location.distance_to ⟨0, 0⟩ ⟨0, 180⟩) =
      Location.distance_to ⟨0, 0⟩ ⟨0, 180⟩ := h1
  rw [dist_origin_antipode] at h3
  exact roundTo_ne_self_of_between 2 (6371 * Real.pi) 2001508
    (by push_cast; nlinarith [Real.pi_gt_d6]) (by push_cast; nlinarith [Real.pi_lt_d6]) h3

theorem nnBuild_greedyOrder :
    ∀ (n : ℕ) (cur : Location) (l : List DemandPoint), l.length = n →
      NNBuild cur l (greedyOrder selectNearest n cur l) := by
  intro n
  induction n with
  | zero =>
    intro cur l hl
    rw [List.length_eq_zero] at hl
    subst hl
    exact NNBuild.nil cur
  | succ n ih =>
    intro cur l hl
    cases l with
    | nil => simp at hl
    | cons d ds =>
      obtain ⟨hmin, pre, post, hsplit, hpre⟩ :=
        pyMin_spec (fun x => cur.distance_to x.location) d ds
      have hmem : pyMin (fun x => cur.distance_to x.location) d ds ∈ d :: ds :=
        pyMin_mem _ d ds
      have hlen :
          ((d :: ds).erase (pyMin (fun x => cur.distance_to x.location) d ds)).length = n := by
        rw [List.length_erase_of_mem hmem]
        simp only [List.length_cons] at hl ⊢
        omega
      have hrec := ih (pyMin (fun x => cur.distance_to x.location) d ds).location _ hlen
      show NNBuild cur (d :: ds)
        (pyMin (fun x => cur.distance_to x.location) d ds ::
          greedyOrder selectNearest n
            (pyMin (fun x => cur.distance_to x.location) d ds).location
            ((d :: ds).erase (pyMin (fun x => cur.distance_to x.location) d ds)))
      exact NNBuild.step cur (d :: ds) _ _ pre post hsplit hpre hmin hrec

/-- C3: `distance_focused_route` visits demands by greedy nearest-neighbour
construction: starting at the depot, each step selects a remaining demand point
at minimal distance from the current location, ties broken in favour of the first
occurrence in the remaining list, moves there and removes it from the remaining
list. -/
theorem C3_nearest_neighbor (demands : List DemandPoint) (vehicle : Vehicle) :
    NNBuild vehicle.depot demands (distance_focused_order demands vehicle) :=
  nnBuild_greedyOrder demands.length vehicle.depot demands rfl

theorem blendedBuild_greedyOrder (uw dw : ℝ) :
    ∀ (n : ℕ) (cur : Location) (l : List DemandPoint), l.length = n →
      BlendedBuild uw dw cur l (greedyOrder (selectBlended uw dw) n cur l) := by
  intro n
  induction n with
  | zero =>
    intro cur l hl
    rw [List.length_eq_zero] at hl
    subst hl
    exact BlendedBuild.nil cur
  | succ n ih =>
    intro cur l hl
    cases l with
    | nil => simp at hl
    | cons d ds =>
      obtain ⟨hmax, pre, post, hsplit, hpre⟩ :=
        pyArgmax_spec (blendedScore uw dw cur
          (if maxDistTo cur d ds = 0 then 1 else maxDistTo cur d ds)) d ds
      have hmem : pyArgmax (blendedScore uw dw cur
          (if maxDistTo cur d ds = 0 then 1 else maxDistTo cur d ds)) d ds ∈ d :: ds :=
        pyArgmax_mem _ d ds
      have hlen : ((d :: ds).erase (pyArgmax (blendedScore uw dw cur
          (if maxDistTo cur d ds = 0 then 1 else maxDistTo cur d ds)) d ds)).length = n := by
        rw [List.length_erase_of_mem hmem]
        simp only [List.length_cons] at hl ⊢
        omega
      have hrec := ih (pyArgmax (blendedScore uw dw cur
        (if maxDistTo cur d ds = 0 then 1 else maxDistTo cur d ds)) d ds).location _ hlen
      show BlendedBuild uw dw cur (d :: ds)
        (pyArgmax (blendedScore uw dw cur
            (if maxDistTo cur d ds = 0 then 1 else maxDistTo cur d ds)) d ds ::
          greedyOrder (selectBlended uw dw) n
            (pyArgmax (blendedScore uw dw cur
              (if maxDistTo cur d ds = 0 then 1 else maxDistTo cur d ds)) d ds).location
            ((d :: ds).erase (pyArgmax (blendedScore uw dw cur
              (if maxDistTo cur d ds = 0 then 1 else maxDistTo cur d ds)) d ds)))
      exact BlendedBuild.step cur (d :: ds) _ _ pre post (maxDistTo cur d ds)
        (maxDistTo_is_ub cur d ds) (maxDistTo_is_mem cur d ds) hsplit hpre hmax hrec

/-- C4: at each step `blended_route` recomputes the maximum distance from the
current location to the remaining demands, substitutes `1.0` when that maximum is
`0`, scores every remaining demand by
`urgency_weight * urgency - distance_weight * (distance / max_dist)`, and selects
the strictly greatest score with the first occurrence winning all ties. -/
theorem C4_blended_scoring (demands : List DemandPoint) (vehicle : Vehicle) (uw dw : ℝ) :
    BlendedBuild uw dw vehicle.depot demands (blended_order demands vehicle uw dw) :=
  blendedBuild_greedyOrder uw dw demands.length vehicle.depot demands rfl

end MeshSOS
